import Mathlib

/-!
Verification development for the `ceph-export` tool (`src/ceph-export.py`).

The program is a sequential exporter: it checks a configuration directory
for `ceph.conf` and a keyring, queries a running cluster with
`ceph -s -f json` / `ceph --version`, extracts a handful of fields by
fixed-path lookups and string splitting, and serializes the resulting flat
settings mapping to a YAML document.

The shallow embedding below renders every function of the source as a pure
Lean function.  File existence and parsed file contents are modelled as a
map from paths to optional parsed INI structures; the external `ceph`
command is modelled by the strings it produces; exceptions are modelled
with `Option` or explicit outcome constructors.
-/

namespace CephExport

/-! ## Python string splitting, embedded over `List Char`

`str.split()` (no argument) splits on runs of whitespace and drops empty
pieces; `str.split(sep)` for a one-character or multi-character separator
splits at every occurrence and keeps empty pieces.  Both are embedded as
structural recursions over `List Char` so that their behaviour can be
reasoned about directly. -/

/-- Worker for Python's `str.split()` with no argument: `acc` holds the
current (reversed) run of non-whitespace characters. -/
def wsSplitAux : List Char → List Char → List (List Char)
  | [], acc => if acc.isEmpty then [] else [acc.reverse]
  | c :: cs, acc =>
    if c.isWhitespace then
      if acc.isEmpty then wsSplitAux cs [] else acc.reverse :: wsSplitAux cs []
    else wsSplitAux cs (c :: acc)

/-- Python `s.split()`: whitespace-separated tokens, empties dropped. -/
def wsSplit (l : List Char) : List (List Char) := wsSplitAux l []

/-- Worker for Python's `str.split(sep)` with a one-character separator:
splits at every occurrence, keeping empty pieces. -/
def charSplitAux (sep : Char) : List Char → List Char → List (List Char)
  | [], acc => [acc.reverse]
  | c :: cs, acc =>
    if c = sep then acc.reverse :: charSplitAux sep cs []
    else charSplitAux sep cs (c :: acc)

/-- Python `s.split(sep)` for a single-character separator. -/
def charSplit (sep : Char) (l : List Char) : List (List Char) :=
  charSplitAux sep l []

/-- One step of Python's `str.split(sep)` for a multi-character separator
`s0 :: srest`: returns the piece before the first occurrence of the
separator together with the remainder after it (`none` when the separator
does not occur). `s.split(sep)` is `chunk0 :: split-of-remainder`, so the
element at index 1 of `s.split(sep)` is the first chunk of the remainder. -/
def subChunk (s0 : Char) (srest : List Char) : List Char → List Char × Option (List Char)
  | [] => ([], none)
  | c :: cs =>
    if List.isPrefixOf (s0 :: srest) (c :: cs) then ([], some (List.drop srest.length cs))
    else
      let p := subChunk s0 srest cs
      (c :: p.1, p.2)

/-! ### Splitting lemmas -/

theorem wsSplitAux_cons (c : Char) (cs acc : List Char) :
    wsSplitAux (c :: cs) acc =
      if c.isWhitespace then
        if acc.isEmpty then wsSplitAux cs [] else acc.reverse :: wsSplitAux cs []
      else wsSplitAux cs (c :: acc) := rfl

theorem charSplitAux_cons (sep c : Char) (cs acc : List Char) :
    charSplitAux sep (c :: cs) acc =
      if c = sep then acc.reverse :: charSplitAux sep cs []
      else charSplitAux sep cs (c :: acc) := rfl

theorem subChunk_cons (s0 : Char) (srest : List Char) (c : Char) (cs : List Char) :
    subChunk s0 srest (c :: cs) =
      if List.isPrefixOf (s0 :: srest) (c :: cs) then ([], some (List.drop srest.length cs))
      else (c :: (subChunk s0 srest cs).1, (subChunk s0 srest cs).2) := rfl

theorem drop_length_append (l r : List Char) : List.drop l.length (l ++ r) = r := by
  induction l with
  | nil => rfl
  | cons c l ih => simp [ih]

theorem wsSplitAux_append_sep (n : List Char) (r acc : List Char)
    (hn : ∀ c ∈ n, c.isWhitespace = false) :
    wsSplitAux (n ++ ' ' :: r) acc =
      if acc = [] ∧ n = [] then wsSplitAux r []
      else (acc.reverse ++ n) :: wsSplitAux r [] := by
  induction n generalizing acc with
  | nil =>
    rw [List.nil_append, wsSplitAux_cons]
    have hsp : (' ' : Char).isWhitespace = true := by decide
    rw [hsp, if_pos rfl]
    by_cases h : acc = []
    · simp [h, List.isEmpty_iff]
    · simp [h, List.isEmpty_iff]
  | cons c n ih =>
    have hc : c.isWhitespace = false := hn c (List.mem_cons_self c n)
    have hrest : ∀ x ∈ n, x.isWhitespace = false := fun x hx => hn x (List.mem_cons_of_mem c hx)
    rw [List.cons_append, wsSplitAux_cons, hc, if_neg (by simp)]
    rw [ih (c :: acc) hrest]
    rw [if_neg (by simp)]
    simp

theorem wsSplitAux_no_ws (n acc : List Char)
    (hn : ∀ c ∈ n, c.isWhitespace = false) :
    wsSplitAux n acc = if acc = [] ∧ n = [] then [] else [acc.reverse ++ n] := by
  induction n generalizing acc with
  | nil =>
    by_cases h : acc = []
    · simp [wsSplitAux, h, List.isEmpty_iff]
    · simp [wsSplitAux, h, List.isEmpty_iff]
  | cons c n ih =>
    have hc : c.isWhitespace = false := hn c (List.mem_cons_self c n)
    have hrest : ∀ x ∈ n, x.isWhitespace = false := fun x hx => hn x (List.mem_cons_of_mem c hx)
    rw [wsSplitAux_cons, hc, if_neg (by simp)]
    rw [ih (c :: acc) hrest]
    rw [if_neg (by simp)]
    simp

theorem charSplitAux_append_sep (sep : Char) (a r acc : List Char)
    (ha : ∀ c ∈ a, c ≠ sep) :
    charSplitAux sep (a ++ sep :: r) acc = (acc.reverse ++ a) :: charSplitAux sep r [] := by
  induction a generalizing acc with
  | nil =>
    rw [List.nil_append, charSplitAux_cons, if_pos rfl]
    simp
  | cons c a ih =>
    have hc : c ≠ sep := ha c (List.mem_cons_self c a)
    have hrest : ∀ x ∈ a, x ≠ sep := fun x hx => ha x (List.mem_cons_of_mem c hx)
    rw [List.cons_append, charSplitAux_cons, if_neg hc]
    rw [ih (c :: acc) hrest]
    simp

theorem charSplitAux_no_sep (sep : Char) (a acc : List Char)
    (ha : ∀ c ∈ a, c ≠ sep) :
    charSplitAux sep a acc = [acc.reverse ++ a] := by
  induction a generalizing acc with
  | nil => simp [charSplitAux]
  | cons c a ih =>
    have hc : c ≠ sep := ha c (List.mem_cons_self c a)
    have hrest : ∀ x ∈ a, x ≠ sep := fun x hx => ha x (List.mem_cons_of_mem c hx)
    rw [charSplitAux_cons, if_neg hc]
    rw [ih (c :: acc) hrest]
    simp

theorem isPrefixOf_self_append (k r : List Char) : List.isPrefixOf k (k ++ r) = true := by
  induction k with
  | nil => simp [List.isPrefixOf]
  | cons c k ih => simp [List.isPrefixOf, ih]

theorem isPrefixOf_cons_ne (s0 c : Char) (k l : List Char) (h : c ≠ s0) :
    List.isPrefixOf (s0 :: k) (c :: l) = false := by
  simp [List.isPrefixOf]
  intro hc
  exact absurd hc.symm h

theorem subChunk_append_sep (s0 : Char) (srest a r : List Char)
    (ha : ∀ c ∈ a, c ≠ s0) :
    subChunk s0 srest (a ++ (s0 :: (srest ++ r))) = (a, some r) := by
  induction a with
  | nil =>
    rw [List.nil_append, subChunk_cons, if_pos]
    · rw [drop_length_append]
    · have h : s0 :: (srest ++ r) = (s0 :: srest) ++ r := rfl
      rw [h, isPrefixOf_self_append]
  | cons c a ih =>
    have hc : c ≠ s0 := ha c (List.mem_cons_self c a)
    have hrest : ∀ x ∈ a, x ≠ s0 := fun x hx => ha x (List.mem_cons_of_mem c hx)
    rw [List.cons_append, subChunk_cons,
      if_neg (by rw [isPrefixOf_cons_ne s0 c _ _ hc]; exact Bool.false_ne_true)]
    rw [ih hrest]

theorem subChunk_fst_append_space (s0 : Char) (srest n b : List Char)
    (hn : ∀ c ∈ n, c ≠ s0) (hs : s0 ≠ ' ') :
    (subChunk s0 srest (n ++ ' ' :: b)).1 = n ++ ' ' :: (subChunk s0 srest b).1 := by
  induction n with
  | nil =>
    rw [List.nil_append, subChunk_cons,
      if_neg (by rw [isPrefixOf_cons_ne s0 ' ' _ _ (Ne.symm hs)]; exact Bool.false_ne_true)]
    rfl
  | cons c n ih =>
    have hc : c ≠ s0 := hn c (List.mem_cons_self c n)
    have hrest : ∀ x ∈ n, x ≠ s0 := fun x hx => hn x (List.mem_cons_of_mem c hx)
    rw [List.cons_append, subChunk_cons,
      if_neg (by rw [isPrefixOf_cons_ne s0 c _ _ hc]; exact Bool.false_ne_true)]
    simp [ih hrest]

/-! ## INI files and the keyring locator (`get_config`, `find_keyring`)

`configparser` output is modelled as an association list of sections, each
an association list of options.  A file system is a map from paths to
`Option IniConfig`: `some c` means the path is a regular file whose
INI-style content parses to `c` (the claims only quantify over well-formed
files); `none` means `os.path.isfile` is false. -/

/-- A parsed INI file: section name to option/value pairs, in file order. -/
structure IniConfig where
  sections : List (String × List (String × String))
deriving DecidableEq

/-- `conf.sections()` of `configparser` (the DEFAULT section excluded). -/
def IniConfig.sectionNames (c : IniConfig) : List String := c.sections.map (·.1)

/-- `conf[name]`: the first section with the given name, if any;
subscripting a missing section raises `KeyError` (modelled as `none`). -/
def IniConfig.findSection (c : IniConfig) (name : String) :
    Option (List (String × String)) :=
  (c.sections.find? (fun s => s.1 = name)).map (·.2)

/-- `sect[key]` on a section mapping: first binding of the option, if any. -/
def lookupKey (entries : List (String × String)) (k : String) : Option String :=
  (entries.find? (fun e => e.1 = k)).map (·.2)

/-- `KEYRING_FILE.format(user)` joined to the configuration directory. -/
def keyring_path (confdir user : String) : String :=
  confdir ++ "/ceph.client." ++ user ++ ".keyring"

/-- `os.path.join(args.confdir, 'keyring-store', 'keyring')`. -/
def keystore_path (confdir : String) : String :=
  confdir ++ "/keyring-store/keyring"

/-- `os.path.join(args.confdir, 'ceph.conf')`. -/
def conf_path (confdir : String) : String := confdir ++ "/ceph.conf"

/-- The file loaded by `find_keyring`: the dedicated keyring file when it
exists, otherwise the keyring-store file when that exists (`conf` stays
`None` when neither does). -/
def load_keyring (files : String → Option IniConfig) (confdir user : String) :
    Option IniConfig :=
  match files (keyring_path confdir user) with
  | some c => some c
  | none => files (keystore_path confdir)

/-- The three ways `find_keyring` can finish: return a secret, return
`None`, or raise `KeyError` out of `conf['client.' + args.user]`. -/
inductive KeyringResult where
  | found (secret : String)
  | notFound
  | keyError
deriving DecidableEq

/-- `find_keyring` from the source: load the first existing candidate,
return `None` if nothing loaded or the loaded structure has no sections or
no `client.admin` section; then check `'key' not in conf['client.' + user]`
— the subscript raises `KeyError` when section `client.<user>` is absent —
and finally return `conf['client.' + user]['key']`. -/
def find_keyring (files : String → Option IniConfig) (confdir user : String) :
    KeyringResult :=
  match load_keyring files confdir user with
  | none => .notFound
  | some conf =>
    if conf.sections.isEmpty then .notFound
    else if ¬ conf.sectionNames.contains "client.admin" then .notFound
    else
      match conf.findSection ("client." ++ user) with
      | none => .keyError
      | some sect =>
        match lookupKey sect "key" with
        | none => .notFound
        | some v => .found v

/-- The keyring locator as the claim words it: returns the secret exactly
when the loaded structure has at least one section, contains a section
literally named `client.admin`, and contains a `key` field inside section
`client.<user>`; in every other case it returns the not-found signal and
never raises.  This definition follows the claim's words, for comparison
with `find_keyring`, which is translated from the source. -/
def claim_keyring_locator (files : String → Option IniConfig) (confdir user : String) :
    KeyringResult :=
  match load_keyring files confdir user with
  | none => .notFound
  | some conf =>
    match conf.findSection ("client." ++ user) with
    | none => .notFound
    | some sect =>
      match lookupKey sect "key" with
      | none => .notFound
      | some v =>
        if ¬ conf.sections.isEmpty ∧ conf.sectionNames.contains "client.admin" = true
        then .found v else .notFound

/-- The condition under which the source's locator deviates from the
claim: a structure was loaded, it has sections including `client.admin`,
but section `client.<user>` is missing, so the membership test
`'key' not in conf['client.' + args.user]` raises `KeyError`. -/
def adminWithoutUserSection (files : String → Option IniConfig) (confdir user : String) :
    Bool :=
  match load_keyring files confdir user with
  | none => false
  | some conf =>
    (!conf.sections.isEmpty) && conf.sectionNames.contains "client.admin"
      && (conf.findSection ("client." ++ user)).isNone

/-! ## Cluster status extraction (`main`, lines 136-157)

The decoded `ceph -s -f json` snapshot is modelled with exactly the fields
the source reads.  Absent-or-falsy optional entries (`.get(..., None)`
followed by a truthiness test) are modelled as `none`. -/

/-- One entry of `monmap.mons`. -/
structure Mon where
  public_addr : String
deriving DecidableEq

/-- `mgrmap`: the active manager address and
`mgrmap['services'].get('dashboard', None)`. -/
structure MgrMap where
  active_addr : String
  dashboard : Option String
deriving DecidableEq

/-- One gateway daemon: `daemons[rgw]['metadata']['frontend_config#0']`. -/
structure RgwDaemon where
  frontend_config : String
deriving DecidableEq

/-- `servicemap['services'].get('rgw', None)`: the `daemons` dictionary as
an association list in insertion order (`none` when absent or falsy). -/
structure ServiceMap where
  rgw : Option (List (String × RgwDaemon))
deriving DecidableEq

/-- The fields of the decoded status snapshot that `main` reads.
`servicemap = none` models `ceph_state.get('servicemap', None)` being
absent or falsy. -/
structure CephState where
  fsid : String
  mons : List Mon
  mgrmap : MgrMap
  servicemap : Option ServiceMap
deriving DecidableEq

/-- The flat settings dictionary built by `main`.  `dashboard`/`rgws` are
`none` when the corresponding keys are never assigned. -/
structure ExportSettings where
  fsid : String
  version : String
  secret : String
  mons : List String
  mgr : String
  dashboard : Option String
  rgws : Option (List String)
deriving DecidableEq

/-- `addr.split(':')[0]`: the part of an address before the first colon. -/
def hostPart (s : String) : String := ⟨(charSplit ':' s.data).headD []⟩

/-- `str(ceph_version_text).split()[2].split('-')[0]` (source line 139):
the whitespace token at index 2 of the version-command output, truncated
at its first `-`.  `none` models the `IndexError` raised when the output
has fewer than three whitespace tokens. -/
def extract_version (t : String) : Option String :=
  ((wsSplit t.data).get? 2).map (fun tok => ⟨(charSplit '-' tok).headD []⟩)

/-- The claim's reading of the version extraction: the first
`major.minor.patch`-style token found after splitting the output on
whitespace and then on `-`.  This definition follows the claim's words,
for comparison with `extract_version`, which is translated from the
source. -/
def isVRM (l : List Char) : Bool :=
  match charSplit '.' l with
  | [a, b, c] =>
    ¬ a.isEmpty && ¬ b.isEmpty && ¬ c.isEmpty
      && a.all Char.isDigit && b.all Char.isDigit && c.all Char.isDigit
  | _ => false

/-- See `isVRM`; claim-side version extraction. -/
def claim_version_token (t : String) : Option String :=
  (((wsSplit t.data).flatMap (charSplit '-')).find? isVRM).map (fun l => ⟨l⟩)

/-- `frontend_str.split('port=')[1].split()[0]` (source line 156): the
first whitespace token of the chunk between the first and second
occurrence of `port=`.  `none` models the `IndexError` raised when
`port=` does not occur (index 1) or the chunk has no tokens (index 0). -/
def parse_rgw_port (f : String) : Option String :=
  match (subChunk 'p' "ort=".data f.data).2 with
  | none => none
  | some rest =>
    ((wsSplit (subChunk 'p' "ort=".data rest).1).head?).map (fun l => (⟨l⟩ : String))

/-- The `for rgw in daemons` loop of source lines 151-156: skip the
literal `summary` entry, parse every other daemon's frontend string, and
collect the ports in order.  `none` models the loop raising. -/
def extract_rgws : List (String × RgwDaemon) → Option (List String)
  | [] => some []
  | (name, d) :: rest =>
    if name = "summary" then extract_rgws rest
    else
      match parse_rgw_port d.frontend_config with
      | none => none
      | some p => (extract_rgws rest).map (fun l => p :: l)

/-- Source lines 136-142: the five unconditional assignments. -/
def base_settings (st : CephState) (ver secret : String) : ExportSettings :=
  { fsid := st.fsid
    version := ver
    secret := secret
    mons := st.mons.map (fun m => hostPart m.public_addr)
    mgr := hostPart st.mgrmap.active_addr
    dashboard := none
    rgws := none }

/-- Source lines 144-146: `if dashboard_url:` is a Python truthiness test,
so an empty dashboard string leaves the key unassigned. -/
def apply_dashboard (d : Option String) (b : ExportSettings) : ExportSettings :=
  match d with
  | some v => if v = "" then b else { b with dashboard := some v }
  | none => b

/-- Source lines 136-157: build the settings dictionary.  `none` models an
uncaught exception (the version `IndexError` or the rgw-loop raising).
The `.get('servicemap')`/`.get('rgw')` truthiness tests are folded into
the `Option` fields of `CephState`. -/
def extract_settings (st : CephState) (version_text secret : String) :
    Option ExportSettings :=
  match extract_version version_text with
  | none => none
  | some ver =>
    match st.servicemap with
    | none => some (apply_dashboard st.mgrmap.dashboard (base_settings st ver secret))
    | some sm =>
      match sm.rgw with
      | none => some (apply_dashboard st.mgrmap.dashboard (base_settings st ver secret))
      | some daemons =>
        (extract_rgws daemons).map
          (fun r =>
            { apply_dashboard st.mgrmap.dashboard (base_settings st ver secret) with
              rgws := some r })

/-! ## Whole-program model (`ready`, `send_command`, `write_file`, `dump`, `main`)

The environment collects everything outside the program: whether the
`ceph` binary is on `PATH`, the file system, the combined output of the
two external invocations, the decoder standing for `json.loads` plus the
typed field reads, whether the output file is writable, and the home
directory used by `os.path.expanduser`. -/

/-- Parsed command-line arguments (`parse_args`). -/
structure Args where
  output : String
  confdir : String
  user : String
  format : String

/-- The run environment. `files p = some c` means `os.path.isfile p` holds
and the INI content of `p` parses to `c`.  `statusOut`/`versionOut` are the
combined stdout+stderr text of the two `ceph` invocations (`versionOut`
after the source's `str(...)` conversion).  `statusDecode` stands for
`json.loads` plus the typed dictionary reads; `none` means that step
raises. -/
structure Env where
  cephInPath : Bool
  files : String → Option IniConfig
  statusOut : String
  versionOut : String
  statusDecode : String → Option CephState
  writeOk : Bool
  home : String

/-- `Defaults.output_format` from the source. -/
def Defaults_output_format : String := "yaml"

/-- `Choices.output_format` from the source: the `--format` flag's allowed
values. -/
def Choices_output_format : List String := ["yaml"]

/-- The `--format` flag as argparse treats it: absent means the default
`yaml`; a supplied value outside `Choices.output_format` makes argparse
reject the command line (modelled as `none`). -/
def parse_format (supplied : Option String) : Option String :=
  match supplied with
  | none => some Defaults_output_format
  | some v => if Choices_output_format.contains v then some v else none

/-- `ready()` from the source: the `ceph` binary first, then `ceph.conf`,
then the two keyring candidates. -/
def ready (env : Env) (a : Args) : Bool × String :=
  if ¬ env.cephInPath then (false, "ceph command not found!")
  else if (env.files (conf_path a.confdir)).isNone then (false, "ceph.conf not found")
  else if (env.files (keyring_path a.confdir a.user)).isNone
      ∧ (env.files (keystore_path a.confdir)).isNone then (false, "missing keyring")
  else (true, "")

/-- `send_command` from the source: `Popen(..., stdout=PIPE,
stderr=STDOUT).communicate()`.  Because stderr is redirected into stdout,
`communicate()` returns the combined output and `None` — the second
component is always `None`. -/
def send_command (combined_output : String) : String × Option String :=
  (combined_output, none)

/-- `os.path.expanduser`: a leading `~` is replaced by the home directory
(the `~user` form is not used by the program's defaults and is modelled
the same way). -/
def expanduser (home p : String) : String :=
  match p.data with
  | '~' :: rest => ⟨home.data ++ rest⟩
  | _ => p

/-- How a run can end: `abort` (prints `Unable to continue: msg` and calls
`sys.exit(1)`), an uncaught exception (non-zero exit, traceback), or a
successful write of the serialized settings to the expanded output path
(exit 0). -/
inductive Outcome where
  | aborted (msg : String)
  | raised (exc : String)
  | fileWritten (path : String) (settings : ExportSettings)
deriving DecidableEq

/-- The names bound at module level in `src/ceph-export.py` (imports,
constants, classes, functions, and `args` assigned under `__main__`). -/
def module_level_names : List String :=
  ["os", "sys", "yaml", "json", "shutil", "argparse", "subprocess", "configparser",
   "KEYRING_FILE", "Defaults", "Choices", "ready", "get_config", "find_keyring",
   "abort", "help", "send_command", "write_file", "_dump_yaml", "dump",
   "parse_args", "main", "args"]

/-- The local names bound inside `write_file`: its parameter `content` and
the `with ... as f` target.  The name `output` is a local of `_dump_yaml`,
not of `write_file`. -/
def write_file_local_names : List String := ["content", "f"]

/-- `write_file` from the source.  On success the file is written and the
final path reported.  On a write failure the `except` branch prints its
message and then evaluates `print(output)`; `output` is bound neither in
`write_file`'s scope nor at module level (see `module_level_names` and
`write_file_local_names`), so the handler itself raises `NameError`, which
propagates and terminates the run with a traceback. -/
def write_file (env : Env) (a : Args) (settings : ExportSettings) : Outcome :=
  if env.writeOk then .fileWritten (expanduser env.home a.output) settings
  else .raised "NameError"

/-- `_dump_yaml`: serialize and hand to `write_file` (the serialized text
is `emitSettings settings`, defined with the exporter model below). -/
def dump_yaml (env : Env) (a : Args) (settings : ExportSettings) : Outcome :=
  write_file env a settings

/-- `dump` from the source. -/
def dump (env : Env) (a : Args) (settings : ExportSettings) : Outcome :=
  if a.format = "yaml" then dump_yaml env a settings
  else .aborted "Unknown output format requested"

/-- `main` from the source.  Note that the parsed `ceph.conf`
(`conf = get_config(...)`, line 120) is never read afterwards, that
`if not keyring:` also treats an empty secret as missing, and that the two
`if error:` guards test the always-`None` second component of
`send_command`. -/
def main (env : Env) (a : Args) : Outcome :=
  if ¬ (ready env a).1 then .aborted (ready env a).2
  else
    match find_keyring env.files a.confdir a.user with
    | .keyError => .raised "KeyError"
    | .notFound => .aborted "Can't find a keyring to use"
    | .found secret =>
      if secret = "" then .aborted "Can't find a keyring to use"
      else
        if (send_command env.statusOut).2.isSome then
          .aborted "ceph command failed - can't determine state"
        else
          if (send_command env.versionOut).2.isSome then
            .aborted "unable to fetch ceph version!"
          else
            match env.statusDecode (send_command env.statusOut).1 with
            | none => .raised "JSONDecodeError"
            | some st =>
              match extract_settings st (send_command env.versionOut).1 secret with
              | none => .raised "IndexError"
              | some settings => dump env a settings

/-! ## The export document format

Modelled from the spec: the source serializes with
`yaml.safe_dump(settings, indent=2, explicit_start=2)`, and PyYAML itself
is outside this repository, so the document format is modelled from the
spec's description of the exporter: a structured document with a
document-start marker and two-space indentation, keys emitted in sorted
order (`dashboard`, `fsid`, `mgr`, `mons`, `rgws`, `secret`, `version`),
block sequences for the two list fields, and quoted scalars.  The parser
below re-parses exactly this document shape. -/

/-- Escape one scalar character for a double-quoted value. -/
def escChar (c : Char) : List Char :=
  if c = '\\' then ['\\', '\\']
  else if c = '"' then ['\\', '"']
  else if c = '\n' then ['\\', 'n']
  else [c]

/-- Escape a scalar. -/
def escape : List Char → List Char
  | [] => []
  | c :: l => escChar c ++ escape l

/-- A double-quoted scalar. -/
def quoteScalar (s : String) : List Char := '"' :: (escape s.data ++ ['"'])

/-- A `key: "value"` mapping line. -/
def kvLine (k : String) (v : String) : List Char :=
  k.data ++ ':' :: ' ' :: quoteScalar v

/-- A `- "value"` block-sequence item line. -/
def itemLine (v : String) : List Char := '-' :: ' ' :: quoteScalar v

/-- A sequence-valued key: `key: []` when empty, otherwise a `key:` line
followed by one item line per element. -/
def seqBlock (k : String) (items : List String) : List (List Char) :=
  match items with
  | [] => [k.data ++ [':', ' ', '[', ']']]
  | _ => (k.data ++ [':']) :: items.map itemLine

/-- The lines of the serialized document, in sorted key order, the
optional keys present only when assigned. -/
def emitLines (s : ExportSettings) : List (List Char) :=
  ["---".data]
    ++ (match s.dashboard with
        | some d => [kvLine "dashboard" d]
        | none => [])
    ++ [kvLine "fsid" s.fsid, kvLine "mgr" s.mgr]
    ++ seqBlock "mons" s.mons
    ++ (match s.rgws with
        | some r => seqBlock "rgws" r
        | none => [])
    ++ [kvLine "secret" s.secret, kvLine "version" s.version]

/-- Join lines, terminating each with a newline. -/
def joinLines : List (List Char) → List Char
  | [] => []
  | l :: ls => l ++ '\n' :: joinLines ls

/-- The serialized document handed to `write_file`. -/
def emitSettings (s : ExportSettings) : String := ⟨joinLines (emitLines s)⟩

/-- Unescape one escaped character. -/
def unescChar (c : Char) : Option Char :=
  if c = '\\' then some '\\'
  else if c = '"' then some '"'
  else if c = 'n' then some '\n'
  else none

/-- Scan a double-quoted scalar body up to the closing quote, undoing the
escapes; returns the scalar characters and the input after the quote. -/
def scanQuoted : List Char → Option (List Char × List Char)
  | [] => none
  | c :: l =>
    if c = '"' then some ([], l)
    else if c = '\\' then
      match l with
      | [] => none
      | e :: l2 =>
        match unescChar e with
        | none => none
        | some u => (scanQuoted l2).map (fun p => (u :: p.1, p.2))
    else if c = '\n' then none
    else (scanQuoted l).map (fun p => (c :: p.1, p.2))

/-- Parse a complete quoted scalar (nothing may follow it on the line). -/
def parseScalar (l : List Char) : Option String :=
  match l with
  | '"' :: r =>
    match scanQuoted r with
    | some (content, []) => some ⟨content⟩
    | _ => none
  | _ => none

/-- Expect a literal character sequence; return the rest. -/
def expectLit : List Char → List Char → Option (List Char)
  | [], l => some l
  | _ :: _, [] => none
  | c :: k, d :: l => if c = d then expectLit k l else none

/-- Parse one `key: "value"` line. -/
def parseKVLine (k : String) (line : List Char) : Option String :=
  (expectLit (k.data ++ [':', ' ']) line).bind parseScalar

/-- Parse consecutive `- "value"` item lines; stop at the first line that
is not an item line. -/
def parseItemLines : List (List Char) → Option (List String × List (List Char))
  | [] => some ([], [])
  | line :: rest =>
    match line with
    | '-' :: ' ' :: q =>
      match parseScalar q with
      | none => none
      | some v => (parseItemLines rest).map (fun p => (v :: p.1, p.2))
    | _ => some ([], line :: rest)

/-- Parse a sequence-valued key (`key: []` or `key:` plus item lines). -/
def parseSeqBlock (k : String) (ls : List (List Char)) :
    Option (List String × List (List Char)) :=
  match ls with
  | [] => none
  | line :: rest =>
    match expectLit (k.data ++ [':']) line with
    | none => none
    | some r =>
      if r = [' ', '[', ']'] then some ([], rest)
      else if r = [] then parseItemLines rest
      else none

/-- Parse an optional `key: "value"` line. -/
def parseOptKV (k : String) (ls : List (List Char)) :
    Option String × List (List Char) :=
  match ls with
  | [] => (none, ls)
  | line :: rest =>
    match parseKVLine k line with
    | some v => (some v, rest)
    | none => (none, line :: rest)

/-- Parse an optional sequence-valued key. -/
def parseOptSeq (k : String) (ls : List (List Char)) :
    Option (Option (List String) × List (List Char)) :=
  match ls with
  | [] => some (none, ls)
  | line :: _ =>
    match expectLit (k.data ++ [':']) line with
    | none => some (none, ls)
    | some _ => (parseSeqBlock k ls).map (fun p => (some p.1, p.2))

/-- Expect the document-start marker line. -/
def parseHeader (ls : List (List Char)) : Option (List (List Char)) :=
  match ls with
  | first :: rest => if first = "---".data then some rest else none
  | [] => none

/-- Parse a mandatory `key: "value"` line. -/
def parseReqKV (k : String) (ls : List (List Char)) :
    Option (String × List (List Char)) :=
  match ls with
  | line :: rest => (parseKVLine k line).map (fun v => (v, rest))
  | [] => none

/-- Parse the whole document (as its line list, with the empty artifact of
the trailing newline at the end). -/
def parseSettingsLines (ls : List (List Char)) : Option ExportSettings :=
  (parseHeader ls).bind fun ls0 =>
  (parseReqKV "fsid" (parseOptKV "dashboard" ls0).2).bind fun p1 =>
  (parseReqKV "mgr" p1.2).bind fun p2 =>
  (parseSeqBlock "mons" p2.2).bind fun pm =>
  (parseOptSeq "rgws" pm.2).bind fun pr =>
  (parseReqKV "secret" pr.2).bind fun p5 =>
  (parseReqKV "version" p5.2).bind fun p6 =>
  if p6.2 = [[]] then
    some { fsid := p1.1, version := p6.1, secret := p5.1, mons := pm.1,
           mgr := p2.1, dashboard := (parseOptKV "dashboard" ls0).1, rgws := pr.1 }
  else none

/-- Re-parse a serialized document. -/
def parseSettings (s : String) : Option ExportSettings :=
  parseSettingsLines (charSplit '\n' s.data)

/-! ## Helper lemmas -/

theorem apply_dashboard_mons (d : Option String) (b : ExportSettings) :
    (apply_dashboard d b).mons = b.mons := by
  cases d with
  | none => rfl
  | some v =>
    unfold apply_dashboard
    by_cases h : v = "" <;> simp [h]

theorem apply_dashboard_mgr (d : Option String) (b : ExportSettings) :
    (apply_dashboard d b).mgr = b.mgr := by
  cases d with
  | none => rfl
  | some v =>
    unfold apply_dashboard
    by_cases h : v = "" <;> simp [h]

theorem isDigit_not_ws (c : Char) (h : c.isDigit = true) : c.isWhitespace = false := by
  cases hw : c.isWhitespace with
  | false => rfl
  | true =>
    exfalso
    simp [Char.isWhitespace] at hw
    rcases hw with ((h1 | h1) | h1) | h1 <;> subst h1 <;> exact absurd h (by decide)

theorem isDigit_ne_p (c : Char) (h : c.isDigit = true) : c ≠ 'p' := by
  intro hc
  subst hc
  exact absurd h (by decide)

theorem string_data_append (s t : String) : (s ++ t).data = s.data ++ t.data := rfl

theorem keyring_path_ne_conf (confdir user : String) :
    keyring_path confdir user ≠ conf_path confdir := by
  intro h
  have h2 := congrArg (fun s : String => s.data.length) h
  unfold keyring_path conf_path at h2
  simp only [string_data_append, List.length_append] at h2
  have ha : ("/ceph.client." : String).data.length = 13 := rfl
  have hb : (".keyring" : String).data.length = 8 := rfl
  have hc : ("/ceph.conf" : String).data.length = 10 := rfl
  rw [ha, hb, hc] at h2
  omega

theorem keystore_path_ne_conf (confdir : String) :
    keystore_path confdir ≠ conf_path confdir := by
  intro h
  have h2 := congrArg (fun s : String => s.data.length) h
  unfold keystore_path conf_path at h2
  simp only [string_data_append, List.length_append] at h2
  have ha : ("/keyring-store/keyring" : String).data.length = 22 := rfl
  have hb : ("/ceph.conf" : String).data.length = 10 := rfl
  rw [ha, hb] at h2
  omega

theorem extract_rgws_length_get (ds : List (String × RgwDaemon)) (ports : List String)
    (h : extract_rgws ds = some ports) :
    ports.length = (ds.filter (fun p => p.1 != "summary")).length
    ∧ ∀ (i : Nat) (hi : i < ports.length)
        (hj : i < (ds.filter (fun p => p.1 != "summary")).length),
        parse_rgw_port ((ds.filter (fun p => p.1 != "summary")).get ⟨i, hj⟩).2.frontend_config
          = some (ports.get ⟨i, hi⟩) := by
  induction ds generalizing ports with
  | nil =>
    unfold extract_rgws at h
    injection h with h
    subst h
    exact ⟨rfl, fun i hi => absurd hi (by simp)⟩
  | cons hd tl ih =>
    obtain ⟨name, d⟩ := hd
    unfold extract_rgws at h
    by_cases hs : name = "summary"
    · rw [if_pos hs] at h
      have := ih ports h
      simpa [hs] using this
    · rw [if_neg hs] at h
      cases hp : parse_rgw_port d.frontend_config with
      | none => rw [hp] at h; cases h
      | some p =>
        rw [hp] at h
        cases hr : extract_rgws tl with
        | none => rw [hr] at h; cases h
        | some ports' =>
          rw [hr] at h
          simp only [Option.map_some] at h
          injection h with h
          subst h
          have hih := ih ports' hr
          have hfil : (((name, d) :: tl).filter (fun p => p.1 != "summary"))
              = (name, d) :: tl.filter (fun p => p.1 != "summary") := by
            simp [List.filter_cons, hs]
          rw [hfil]
          constructor
          · simpa using hih.1
          · intro i hi hj
            match i with
            | 0 => simpa using hp
            | Nat.succ k =>
              have hk : k < ports'.length := by simpa using hi
              have hk2 : k < (tl.filter (fun p => p.1 != "summary")).length := by
                simpa using hj
              simpa using hih.2 k hk hk2

/-! ## Claim C1 -/

/-- A file system with only the keyring-store file, holding only a
`client.admin` section. -/
def fsC1 : String → Option IniConfig := fun p =>
  if p = "/etc/ceph/keyring-store/keyring"
  then some ⟨[("client.admin", [("key", "AQX")])]⟩
  else none

/-- C1 counterexample: with a loaded keyring that has sections and a
`client.admin` section but no `client.bob` section, the source's
`find_keyring` raises `KeyError` out of `conf['client.' + args.user]`,
whereas the claim demands the not-found signal ("rather than raising") —
`claim_keyring_locator` renders the claim's words. -/
theorem find_keyring_raises_for_missing_user_section :
    find_keyring fsC1 "/etc/ceph" "bob" = KeyringResult.keyError
    ∧ claim_keyring_locator fsC1 "/etc/ceph" "bob" = KeyringResult.notFound
    ∧ KeyringResult.keyError ≠ KeyringResult.notFound :=
  ⟨by decide, by decide, by decide⟩

/-- C1 (amended): the keyring locator attempts the two candidate paths in
the claimed fixed order and behaves exactly as the claim states — returns
the secret when the loaded structure has a section, contains
`client.admin`, and has a `key` field in section `client.<user>`, and
returns the not-found signal otherwise — except in one case: when the
loaded structure has a `client.admin` section but no `client.<user>`
section at all, the lookup raises `KeyError` instead of returning the
not-found signal. -/
theorem find_keyring_matches_claim_except_user_section
    (files : String → Option IniConfig) (confdir user : String) :
    find_keyring files confdir user =
      (if adminWithoutUserSection files confdir user then KeyringResult.keyError
       else claim_keyring_locator files confdir user)
    ∧ (∀ c, files (keyring_path confdir user) = some c →
        load_keyring files confdir user = some c)
    ∧ (files (keyring_path confdir user) = none →
        load_keyring files confdir user = files (keystore_path confdir)) := by
  refine ⟨?_, ?_, ?_⟩
  · unfold find_keyring adminWithoutUserSection claim_keyring_locator
    cases h : load_keyring files confdir user with
    | none => rfl
    | some conf =>
      cases he : conf.sections.isEmpty with
      | true =>
        cases hf : conf.findSection ("client." ++ user) with
        | none => simp [he, hf]
        | some sect =>
          cases hk : lookupKey sect "key" with
          | none => simp [he, hf, hk]
          | some v => simp [he, hf, hk]
      | false =>
        cases ha : conf.sectionNames.contains "client.admin" with
        | false =>
          have haMem : "client.admin" ∉ conf.sectionNames := by simpa using ha
          cases hf : conf.findSection ("client." ++ user) with
          | none => simp [he, ha, haMem, hf]
          | some sect =>
            cases hk : lookupKey sect "key" with
            | none => simp [he, ha, haMem, hf, hk]
            | some v => simp [he, ha, haMem, hf, hk]
        | true =>
          have haMem : "client.admin" ∈ conf.sectionNames := by simpa using ha
          cases hf : conf.findSection ("client." ++ user) with
          | none => simp [he, ha, haMem, hf]
          | some sect =>
            cases hk : lookupKey sect "key" with
            | none => simp [he, ha, haMem, hf, hk]
            | some v => simp [he, ha, haMem, hf, hk]
  · intro c hc
    unfold load_keyring
    rw [hc]
  · intro hc
    unfold load_keyring
    rw [hc]

/-! ## Claim C4 -/

/-- C4: whenever extraction succeeds, the `mons` list is the snapshot's
monitor list, in order, with each public address stripped to the part
before the first `:`, and `mgr` is the active manager address stripped the
same way. -/
theorem extract_settings_mons_mgr (st : CephState) (vt secret : String)
    (es : ExportSettings) (h : extract_settings st vt secret = some es) :
    es.mons = st.mons.map (fun m => hostPart m.public_addr)
    ∧ es.mgr = hostPart st.mgrmap.active_addr
    ∧ es.mons.length = st.mons.length := by
  have key : es.mons = st.mons.map (fun m => hostPart m.public_addr)
      ∧ es.mgr = hostPart st.mgrmap.active_addr := by
    unfold extract_settings at h
    split at h
    · exact Option.noConfusion h
    · split at h
      · injection h with h
        rw [← h]
        simp [apply_dashboard_mons, apply_dashboard_mgr, base_settings]
      · split at h
        · injection h with h
          rw [← h]
          simp [apply_dashboard_mons, apply_dashboard_mgr, base_settings]
        · rename_i daemons hrgw
          cases hx : extract_rgws daemons <;> rw [hx] at h
          · exact Option.noConfusion h
          · simp only [Option.map_some] at h
            injection h with h
            rw [← h]
            simp [apply_dashboard_mons, apply_dashboard_mgr, base_settings]
  refine ⟨key.1, key.2, ?_⟩
  rw [key.1]
  simp

/-- The claim's mocked snapshot: fsid `abc-123`, one monitor with
public address `10.0.0.1:6789/0`, active manager `10.0.0.2:6800/0`. -/
def stC4 : CephState :=
  ⟨"abc-123", [⟨"10.0.0.1:6789/0"⟩], ⟨"10.0.0.2:6800/0", none⟩, none⟩

/-- The settings extracted from `stC4`. -/
def esC4 : ExportSettings :=
  ⟨"abc-123", "14.2.8", "s", ["10.0.0.1"], "10.0.0.2", none, none⟩

/-- C4 witness: at the claim's snapshot, extraction succeeds and yields
`mons = ["10.0.0.1"]` and `mgr = "10.0.0.2"`. -/
theorem extract_settings_mons_mgr_witness :
    extract_settings stC4 "ceph version 14.2.8-49 x" "s" = some esC4
    ∧ esC4.mons = ["10.0.0.1"] ∧ esC4.mgr = "10.0.0.2" := by
  have h : extract_settings stC4 "ceph version 14.2.8-49 x" "s" = some esC4 := by decide
  have key := extract_settings_mons_mgr stC4 "ceph version 14.2.8-49 x" "s" esC4 h
  exact ⟨h, key.1.trans (by decide), key.2.1.trans (by decide)⟩

/-! ## Claim C5 -/

/-- C5 counterexample: on the output `ceph version edge 1.2.3` the source
extracts the token at index 2 (`edge`), not the first
`major.minor.patch`-style token (`1.2.3`) demanded by the claim
(`claim_version_token` renders the claim's words). -/
theorem extract_version_not_first_vrm :
    extract_version "ceph version edge 1.2.3" = some "edge"
    ∧ claim_version_token "ceph version edge 1.2.3" = some "1.2.3"
    ∧ extract_version "ceph version edge 1.2.3"
        ≠ claim_version_token "ceph version edge 1.2.3" :=
  ⟨by decide, by decide, by decide⟩

/-- C5 (amended): the extracted `version` equals the whitespace token at
index 2 of the version-command output truncated at its first `-` (an
`IndexError` when there are fewer than three tokens); for outputs of the
canonical shape `ceph version <V>` this is the leading
`major.minor.patch` triple of `<V>`. -/
theorem extract_version_third_token (v : String) (hne : v.data ≠ [])
    (hws : ∀ c ∈ v.data, c.isWhitespace = false) :
    extract_version ("ceph version " ++ v) = some ⟨(charSplit '-' v.data).headD []⟩ := by
  unfold extract_version
  have hdata : ("ceph version " ++ v).data
      = "ceph".data ++ ' ' :: ("version".data ++ ' ' :: v.data) := rfl
  rw [hdata]
  unfold wsSplit
  rw [wsSplitAux_append_sep "ceph".data _ [] (by decide)]
  rw [if_neg (by simp)]
  rw [wsSplitAux_append_sep "version".data _ [] (by decide)]
  rw [if_neg (by simp)]
  rw [wsSplitAux_no_ws v.data [] hws]
  rw [if_neg (by simp [hne])]
  simp

/-- C5 witness: the canonical output `ceph version 14.2.8-49.el8cp` yields
version `14.2.8`. -/
theorem extract_version_third_token_witness :
    ("14.2.8-49.el8cp" : String).data ≠ []
    ∧ extract_version ("ceph version " ++ "14.2.8-49.el8cp") = some "14.2.8" := by
  refine ⟨by decide, ?_⟩
  have h := extract_version_third_token "14.2.8-49.el8cp" (by decide) (by decide)
  rw [h]
  decide

/-! ## Claim C6 -/

/-- C6: a successful rgw extraction has one entry per non-`summary`
daemon, in order, each the parsed port of that daemon's frontend string;
and the port parser applied to a string of the form `...port=<N> ...`
(prefix without `p`, `<N>` nonempty digits followed by a blank) returns
exactly `<N>`. -/
theorem rgws_skip_summary_ports
    (daemons : List (String × RgwDaemon)) (ports : List String)
    (h : extract_rgws daemons = some ports)
    (f : String) (a n b : List Char)
    (hf : f.data = a ++ ("port=".data ++ (n ++ ' ' :: b)))
    (ha : ∀ c ∈ a, c ≠ 'p') (hn : n ≠ []) (hd : ∀ c ∈ n, c.isDigit = true) :
    (ports.length = (daemons.filter (fun p => p.1 != "summary")).length
     ∧ ∀ (i : Nat) (hi : i < ports.length)
         (hj : i < (daemons.filter (fun p => p.1 != "summary")).length),
         parse_rgw_port
             ((daemons.filter (fun p => p.1 != "summary")).get ⟨i, hj⟩).2.frontend_config
           = some (ports.get ⟨i, hi⟩))
    ∧ parse_rgw_port f = some ⟨n⟩ := by
  refine ⟨extract_rgws_length_get daemons ports h, ?_⟩
  unfold parse_rgw_port
  rw [hf]
  rw [show a ++ ("port=".data ++ (n ++ ' ' :: b))
      = a ++ ('p' :: ("ort=".data ++ (n ++ ' ' :: b))) from rfl]
  rw [subChunk_append_sep 'p' "ort=".data a (n ++ ' ' :: b) ha]
  show ((wsSplit (subChunk 'p' "ort=".data (n ++ ' ' :: b)).1).head?).map
      (fun l => (⟨l⟩ : String)) = some ⟨n⟩
  rw [subChunk_fst_append_space 'p' "ort=".data n b
    (fun c hc => isDigit_ne_p c (hd c hc)) (by decide)]
  unfold wsSplit
  rw [wsSplitAux_append_sep n _ [] (fun c hc => isDigit_not_ws c (hd c hc))]
  rw [if_neg (by simp [hn])]
  simp

/-- C6 witness: two daemons, one the literal `summary`, the other with
frontend `beast port=8080 s`: extraction yields `["8080"]` and the port
parser returns `8080`. -/
theorem rgws_skip_summary_ports_witness :
    extract_rgws [("summary", ⟨"x"⟩), ("rgw.a", ⟨"beast port=8080 s"⟩)] = some ["8080"]
    ∧ parse_rgw_port "beast port=8080 s" = some "8080" := by
  have h : extract_rgws [("summary", ⟨"x"⟩), ("rgw.a", ⟨"beast port=8080 s"⟩)]
      = some ["8080"] := by decide
  have key := rgws_skip_summary_ports _ _ h "beast port=8080 s"
    "beast ".data "8080".data "s".data (by decide) (by decide) (by decide) (by decide)
  exact ⟨h, key.2⟩

/-! ## Claims about whole runs (C2, C3, C7, C9, C10) -/

/-- The default command line: `-o ~/rhcs-config-export.yaml -c /etc/ceph
-u admin -f yaml`. -/
def argsDefault : Args :=
  { output := "~/rhcs-config-export.yaml", confdir := "/etc/ceph",
    user := "admin", format := "yaml" }

/-- A command line with an absolute output path. -/
def argsOut : Args :=
  { output := "/root/out.yaml", confdir := "/etc/ceph",
    user := "admin", format := "yaml" }

/-- A well-formed `ceph.conf`. -/
def iniGlobalA : IniConfig := ⟨[("global", [("fsid", "A"), ("mon host", "h:1")])]⟩

/-- The same file with different contents. -/
def iniGlobalB : IniConfig := ⟨[("global", [("fsid", "B"), ("mon host", "h:2")])]⟩

/-- A keyring with an admin secret. -/
def keyringIni : IniConfig := ⟨[("client.admin", [("key", "SEC")])]⟩

/-- A file system with `ceph.conf` (of the given parsed content) and the
dedicated admin keyring file. -/
def filesWith (conf : IniConfig) : String → Option IniConfig := fun p =>
  if p = conf_path "/etc/ceph" then some conf
  else if p = keyring_path "/etc/ceph" "admin" then some keyringIni
  else none

/-- A status snapshot used by the concrete runs. -/
def demoState : CephState :=
  ⟨"abc-123", [⟨"10.0.0.1:6789/0"⟩], ⟨"10.0.0.2:6800/0", none⟩, none⟩

/-! ### Claim C7 -/

/-- An environment with no `ceph` binary and no files at all. -/
def envNoCeph : Env :=
  { cephInPath := false, files := fun _ => none, statusOut := "", versionOut := "",
    statusDecode := fun _ => none, writeOk := true, home := "/root" }

/-- C7 counterexample: in a run where `ceph.conf` is missing but the
`ceph` binary is missing as well, `ready()` aborts with
`ceph command not found!` — not with the `ceph.conf not found` condition
the claim asserts for every run with a missing `ceph.conf`. -/
theorem missing_conf_other_abort :
    envNoCeph.files (conf_path argsDefault.confdir) = none
    ∧ main envNoCeph argsDefault = Outcome.aborted "ceph command not found!"
    ∧ main envNoCeph argsDefault ≠ Outcome.aborted "ceph.conf not found" :=
  ⟨rfl, by decide, by decide⟩

/-- C7 (amended): in every run where the `ceph` binary is found but
`<confdir>/ceph.conf` does not exist, the tool aborts during the
readiness check with the `ceph.conf not found` condition (non-zero exit)
and writes no output file. -/
theorem missing_conf_aborts (env : Env) (a : Args)
    (hceph : env.cephInPath = true)
    (hmiss : env.files (conf_path a.confdir) = none) :
    main env a = Outcome.aborted "ceph.conf not found"
    ∧ ∀ p s, main env a ≠ Outcome.fileWritten p s := by
  have hr : ready env a = (false, "ceph.conf not found") := by
    unfold ready
    rw [hceph, hmiss]
    simp
  have hm : main env a = Outcome.aborted "ceph.conf not found" := by
    unfold main
    rw [hr]
    simp
  exact ⟨hm, fun p s => by rw [hm]; exact fun hcontra => Outcome.noConfusion hcontra⟩

/-- An environment with the `ceph` binary but no files. -/
def envMissingConf : Env :=
  { cephInPath := true, files := fun _ => none, statusOut := "", versionOut := "",
    statusDecode := fun _ => none, writeOk := true, home := "/root" }

/-- C7 witness: concrete run with the binary present and `ceph.conf`
absent. -/
theorem missing_conf_aborts_witness :
    envMissingConf.cephInPath = true
    ∧ envMissingConf.files (conf_path argsDefault.confdir) = none
    ∧ main envMissingConf argsDefault = Outcome.aborted "ceph.conf not found" :=
  ⟨rfl, rfl, (missing_conf_aborts envMissingConf argsDefault rfl rfl).1⟩

/-! ### Claim C2 -/

/-- An otherwise fully successful run whose output destination is not
writable. -/
def envWriteFail : Env :=
  { cephInPath := true, files := filesWith iniGlobalA, statusOut := "status-json",
    versionOut := "ceph version 14.2.8-49 stable",
    statusDecode := fun _ => some demoState, writeOk := false, home := "/root" }

/-- C2: the name `output` is bound neither in `write_file`'s local scope
nor at module level, so the `except` handler's `print(output)` raises
`NameError`: on a write failure the run terminates with an uncaught
exception (non-zero exit) instead of printing the serialized content and
exiting 0; the claimed fallback never happens. -/
theorem write_failure_raises_name_error :
    ("output" ∉ write_file_local_names ∧ "output" ∉ module_level_names)
    ∧ (∀ (env : Env) (a : Args) (s : ExportSettings),
        write_file { env with writeOk := false } a s = Outcome.raised "NameError")
    ∧ main envWriteFail argsOut = Outcome.raised "NameError"
    ∧ (∀ p s, main envWriteFail argsOut ≠ Outcome.fileWritten p s) := by
  refine ⟨by decide, fun env a s => rfl, by decide, ?_⟩
  intro p s hcontra
  have h : main envWriteFail argsOut = Outcome.raised "NameError" := by decide
  rw [h] at hcontra
  exact Outcome.noConfusion hcontra

/-! ### Claim C3 -/

/-- A run in which the `ceph --version` invocation errors: its combined
stdout+stderr is an error message, while the status query succeeds. -/
def envVersionError : Env :=
  { cephInPath := true, files := filesWith iniGlobalA, statusOut := "status-json",
    versionOut := "Error: unable to contact cluster",
    statusDecode := fun _ => some demoState, writeOk := true, home := "/root" }

/-- C3: `send_command` pipes stderr into stdout, so the second component
of `communicate()` is always `None` and both `if error: abort(...)` guards
are dead; a run whose version invocation errored does not terminate — it
extracts the junk token `to` as the version and exports successfully
(exit 0) instead of failing fatally before extraction. -/
theorem send_command_error_branch_dead :
    (∀ out, (send_command out).2 = none)
    ∧ main envVersionError argsOut =
        Outcome.fileWritten "/root/out.yaml"
          { fsid := "abc-123", version := "to", secret := "SEC",
            mons := ["10.0.0.1"], mgr := "10.0.0.2",
            dashboard := none, rgws := none } :=
  ⟨fun _ => rfl, by decide⟩

/-! ### Claim C9 -/

/-- C9: the run outcome — in particular the exported settings — does not
depend on the parsed contents of `<confdir>/ceph.conf`: two environments
that agree everywhere except on that file's (present, well-formed)
contents produce identical outcomes.  The file is parsed at line 120 but
the result is never read. -/
theorem output_independent_of_conf_contents (env1 env2 : Env) (a : Args)
    (hfiles : ∀ p, p ≠ conf_path a.confdir → env1.files p = env2.files p)
    (h1 : (env1.files (conf_path a.confdir)).isSome = true)
    (h2 : (env2.files (conf_path a.confdir)).isSome = true)
    (hpath : env1.cephInPath = env2.cephInPath)
    (hstat : env1.statusOut = env2.statusOut)
    (hver : env1.versionOut = env2.versionOut)
    (hdec : env1.statusDecode = env2.statusDecode)
    (hw : env1.writeOk = env2.writeOk)
    (hh : env1.home = env2.home) :
    main env1 a = main env2 a := by
  have hk1 : env1.files (keyring_path a.confdir a.user)
      = env2.files (keyring_path a.confdir a.user) :=
    hfiles _ (keyring_path_ne_conf a.confdir a.user)
  have hk2 : env1.files (keystore_path a.confdir)
      = env2.files (keystore_path a.confdir) :=
    hfiles _ (keystore_path_ne_conf a.confdir)
  have hready : ready env1 a = ready env2 a := by
    obtain ⟨c1, hc1⟩ := Option.isSome_iff_exists.mp h1
    obtain ⟨c2, hc2⟩ := Option.isSome_iff_exists.mp h2
    unfold ready
    rw [hpath, hk1, hk2, hc1, hc2]
    simp
  have hfind : find_keyring env1.files a.confdir a.user
      = find_keyring env2.files a.confdir a.user := by
    unfold find_keyring load_keyring
    rw [hk1, hk2]
  unfold main dump dump_yaml write_file
  rw [hready, hfind, hstat, hver, hdec, hw, hh]

/-- Environments for the C9 witness, differing only in the contents of
`/etc/ceph/ceph.conf`. -/
def envConfA : Env :=
  { cephInPath := true, files := filesWith iniGlobalA, statusOut := "status-json",
    versionOut := "ceph version 14.2.8-49 stable",
    statusDecode := fun _ => some demoState, writeOk := true, home := "/root" }

/-- See `envConfA`. -/
def envConfB : Env :=
  { cephInPath := true, files := filesWith iniGlobalB, statusOut := "status-json",
    versionOut := "ceph version 14.2.8-49 stable",
    statusDecode := fun _ => some demoState, writeOk := true, home := "/root" }

/-- C9 witness: two concrete runs, `ceph.conf` contents `A` vs `B`, same
outcome. -/
theorem output_independent_witness :
    (envConfA.files (conf_path "/etc/ceph")).isSome = true
    ∧ (envConfB.files (conf_path "/etc/ceph")).isSome = true
    ∧ main envConfA argsOut = main envConfB argsOut :=
  ⟨rfl, rfl,
    output_independent_of_conf_contents envConfA envConfB argsOut
      (fun p hp => by
        have hp' : p ≠ conf_path "/etc/ceph" := hp
        show filesWith iniGlobalA p = filesWith iniGlobalB p
        unfold filesWith
        rw [if_neg hp', if_neg hp'])
      rfl rfl rfl rfl rfl rfl rfl rfl⟩

/-! ### Claim C10 -/

/-- C10: every format value that the argument parser can produce — the
default `yaml` or a supplied value from the single-element choice list —
makes the `Unknown output format requested` abort in `dump` unreachable,
for `dump` itself and for any whole run. -/
theorem unknown_format_abort_unreachable (supplied : Option String) (env : Env) (a : Args)
    (hp : parse_format supplied = some a.format) :
    (∀ s, dump env a s ≠ Outcome.aborted "Unknown output format requested")
    ∧ main env a ≠ Outcome.aborted "Unknown output format requested" := by
  have hy : a.format = "yaml" := by
    cases supplied with
    | none =>
      unfold parse_format Defaults_output_format at hp
      exact (Option.some_injective _ hp).symm
    | some v =>
      simp only [parse_format] at hp
      by_cases hv : Choices_output_format.contains v
      · rw [if_pos hv] at hp
        have hveq : v = "yaml" := by
          have := hv
          unfold Choices_output_format at this
          simpa using this
        rw [← (Option.some_injective _ hp), hveq]
      · rw [if_neg hv] at hp
        exact Option.noConfusion hp
  have hdump : ∀ s, dump env a s ≠ Outcome.aborted "Unknown output format requested" := by
    intro s
    unfold dump dump_yaml write_file
    rw [hy, if_pos rfl]
    split
    · exact fun hcontra => Outcome.noConfusion hcontra
    · exact fun hcontra => Outcome.noConfusion hcontra
  refine ⟨hdump, ?_⟩
  have hready : (ready env a).2 ≠ "Unknown output format requested" := by
    unfold ready
    split
    · decide
    · split
      · decide
      · split
        · decide
        · decide
  unfold main
  split
  · intro hcontra
    injection hcontra with hmsg
    exact hready hmsg
  · split
    · exact fun hcontra => Outcome.noConfusion hcontra
    · exact fun hcontra => by
        injection hcontra with hmsg
        exact absurd hmsg (by decide)
    · split
      · exact fun hcontra => by
          injection hcontra with hmsg
          exact absurd hmsg (by decide)
      · rw [if_neg (by simp [send_command])]
        rw [if_neg (by simp [send_command])]
        split
        · exact fun hcontra => Outcome.noConfusion hcontra
        · split
          · exact fun hcontra => Outcome.noConfusion hcontra
          · exact hdump _

/-- C10 witness: the default command line (`--format` absent) yields
format `yaml`, and a concrete run never hits the unknown-format abort. -/
theorem unknown_format_abort_unreachable_witness :
    parse_format none = some argsOut.format
    ∧ main envConfA argsOut ≠ Outcome.aborted "Unknown output format requested" :=
  ⟨rfl, (unknown_format_abort_unreachable none envConfA argsOut rfl).2⟩

/-! ## Claim C8: the export round-trip -/

theorem scanQuoted_close (r : List Char) : scanQuoted ('"' :: r) = some ([], r) := by
  cases r with
  | nil => rw [scanQuoted.eq_2, if_pos rfl]
  | cons a t => rw [scanQuoted.eq_3, if_pos rfl]

theorem scanQuoted_escaped_pair (e u : Char) (hu : unescChar e = some u) (t : List Char) :
    scanQuoted ('\\' :: e :: t) = (scanQuoted t).map (fun p => (u :: p.1, p.2)) := by
  rw [scanQuoted.eq_3, if_neg (by decide), if_pos rfl, hu]

theorem scanQuoted_plain (c : Char) (h1 : c ≠ '"') (h2 : c ≠ '\\') (h3 : c ≠ '\n')
    (t : List Char) :
    scanQuoted (c :: t) = (scanQuoted t).map (fun p => (c :: p.1, p.2)) := by
  cases t with
  | nil => rw [scanQuoted.eq_2, if_neg h1, if_neg h2, if_neg h3]
  | cons a t => rw [scanQuoted.eq_3, if_neg h1, if_neg h2, if_neg h3]

theorem scanQuoted_escape (l r : List Char) :
    scanQuoted (escape l ++ '"' :: r) = some (l, r) := by
  induction l with
  | nil =>
    show scanQuoted ('"' :: r) = some ([], r)
    exact scanQuoted_close r
  | cons c l ih =>
    have hassoc : escape (c :: l) ++ '"' :: r = escChar c ++ (escape l ++ '"' :: r) := by
      show (escChar c ++ escape l) ++ '"' :: r = _
      rw [List.append_assoc]
    rw [hassoc]
    by_cases h1 : c = '\\'
    · subst h1
      rw [show escChar '\\' ++ (escape l ++ '"' :: r)
          = '\\' :: '\\' :: (escape l ++ '"' :: r) from rfl]
      rw [scanQuoted_escaped_pair '\\' '\\' rfl, ih]
      rfl
    · by_cases h2 : c = '"'
      · subst h2
        rw [show escChar '"' ++ (escape l ++ '"' :: r)
            = '\\' :: '"' :: (escape l ++ '"' :: r) from rfl]
        rw [scanQuoted_escaped_pair '"' '"' rfl, ih]
        rfl
      · by_cases h3 : c = '\n'
        · subst h3
          rw [show escChar '\n' ++ (escape l ++ '"' :: r)
              = '\\' :: 'n' :: (escape l ++ '"' :: r) from rfl]
          rw [scanQuoted_escaped_pair 'n' '\n' rfl, ih]
          rfl
        · rw [show escChar c ++ (escape l ++ '"' :: r)
              = c :: (escape l ++ '"' :: r) from by
            unfold escChar
            rw [if_neg h1, if_neg h2, if_neg h3]
            rfl]
          rw [scanQuoted_plain c h2 h1 h3, ih]
          rfl

theorem parseScalar_quote (v : String) : parseScalar (quoteScalar v) = some v := by
  have h := scanQuoted_escape v.data []
  show (match scanQuoted (escape v.data ++ '"' :: []) with
        | some (content, []) => some (⟨content⟩ : String)
        | _ => none) = some v
  rw [h]

theorem expectLit_append (k r : List Char) : expectLit k (k ++ r) = some r := by
  induction k with
  | nil => rfl
  | cons c k ih =>
    show expectLit (c :: k) (c :: (k ++ r)) = some r
    unfold expectLit
    rw [if_pos rfl]
    exact ih

theorem expectLit_self (k : List Char) : expectLit k k = some [] := by
  have h := expectLit_append k []
  rwa [List.append_nil] at h

theorem parseKVLine_emit (k v : String) : parseKVLine k (kvLine k v) = some v := by
  unfold parseKVLine kvLine
  rw [show k.data ++ ':' :: ' ' :: quoteScalar v
      = (k.data ++ [':', ' ']) ++ quoteScalar v from by simp]
  rw [expectLit_append]
  show parseScalar (quoteScalar v) = some v
  exact parseScalar_quote v

/-- The first line of the tail that follows a block: item lines start with
`-`, everything the parsers hand over starts with a key character or is
the empty trailing-newline artifact. -/
def headNotDash : List (List Char) → Prop
  | (c :: _) :: _ => c ≠ '-'
  | _ => True

theorem parseItemLines_stop (line : List Char) (rest : List (List Char))
    (h : headNotDash (line :: rest)) :
    parseItemLines (line :: rest) = some ([], line :: rest) := by
  unfold parseItemLines
  split
  · exact absurd rfl h
  · rfl

theorem parseItemLines_emit (items : List String) (rest : List (List Char))
    (h : headNotDash rest) :
    parseItemLines (items.map itemLine ++ rest) = some (items, rest) := by
  induction items with
  | nil =>
    cases rest with
    | nil => rfl
    | cons line r => exact parseItemLines_stop line r h
  | cons v items ih =>
    show parseItemLines (('-' :: ' ' :: quoteScalar v) :: (items.map itemLine ++ rest))
        = some (v :: items, rest)
    show (match parseScalar (quoteScalar v) with
          | none => none
          | some w =>
            (parseItemLines (items.map itemLine ++ rest)).map (fun p => (w :: p.1, p.2)))
        = some (v :: items, rest)
    rw [parseScalar_quote, ih]
    rfl

theorem expectLit_colon_brackets (k : String) :
    expectLit (k.data ++ [':']) (k.data ++ [':', ' ', '[', ']'])
      = some [' ', '[', ']'] := by
  have h := expectLit_append (k.data ++ [':']) [' ', '[', ']']
  rwa [List.append_assoc] at h

theorem parseSeqBlock_emit_nil (k : String) (rest : List (List Char)) :
    parseSeqBlock k ((k.data ++ [':', ' ', '[', ']']) :: rest) = some ([], rest) := by
  show (match expectLit (k.data ++ [':']) (k.data ++ [':', ' ', '[', ']']) with
        | none => none
        | some r =>
          if r = [' ', '[', ']'] then some ([], rest)
          else if r = [] then parseItemLines rest else none)
      = some ([], rest)
  rw [expectLit_colon_brackets]
  rfl

theorem parseSeqBlock_emit_cons (k : String) (rest' : List (List Char)) :
    parseSeqBlock k ((k.data ++ [':']) :: rest') = parseItemLines rest' := by
  show (match expectLit (k.data ++ [':']) (k.data ++ [':']) with
        | none => none
        | some r =>
          if r = [' ', '[', ']'] then some ([], rest')
          else if r = [] then parseItemLines rest' else none)
      = parseItemLines rest'
  rw [expectLit_self]
  rfl

theorem parseSeqBlock_emit (k : String) (items : List String) (rest : List (List Char))
    (h : headNotDash rest) :
    parseSeqBlock k (seqBlock k items ++ rest) = some (items, rest) := by
  cases items with
  | nil =>
    show parseSeqBlock k ((k.data ++ [':', ' ', '[', ']']) :: rest) = some ([], rest)
    exact parseSeqBlock_emit_nil k rest
  | cons v vs =>
    show parseSeqBlock k ((k.data ++ [':']) :: ((v :: vs).map itemLine ++ rest))
        = some (v :: vs, rest)
    rw [parseSeqBlock_emit_cons]
    exact parseItemLines_emit (v :: vs) rest h

theorem parseOptSeq_emit (k : String) (items : List String) (rest : List (List Char))
    (h : headNotDash rest) :
    parseOptSeq k (seqBlock k items ++ rest) = some (some items, rest) := by
  cases items with
  | nil =>
    show (match expectLit (k.data ++ [':']) (k.data ++ [':', ' ', '[', ']']) with
          | none => some (none, (k.data ++ [':', ' ', '[', ']']) :: rest)
          | some _ =>
            (parseSeqBlock k ((k.data ++ [':', ' ', '[', ']']) :: rest)).map
              (fun p => (some p.1, p.2)))
        = some (some [], rest)
    rw [expectLit_colon_brackets, parseSeqBlock_emit_nil]
    rfl
  | cons v vs =>
    show (match expectLit (k.data ++ [':']) (k.data ++ [':']) with
          | none => some (none, (k.data ++ [':']) :: ((v :: vs).map itemLine ++ rest))
          | some _ =>
            (parseSeqBlock k ((k.data ++ [':']) :: ((v :: vs).map itemLine ++ rest))).map
              (fun p => (some p.1, p.2)))
        = some (some (v :: vs), rest)
    rw [expectLit_self, parseSeqBlock_emit_cons, parseItemLines_emit (v :: vs) rest h]
    rfl

theorem charSplit_joinLines (ls : List (List Char))
    (h : ∀ line ∈ ls, '\n' ∉ line) :
    charSplit '\n' (joinLines ls) = ls ++ [[]] := by
  induction ls with
  | nil => rfl
  | cons line ls ih =>
    show charSplit '\n' (line ++ '\n' :: joinLines ls) = line :: (ls ++ [[]])
    unfold charSplit
    rw [charSplitAux_append_sep '\n' line (joinLines ls) []
      (fun c hc heq => h line (List.mem_cons_self line ls) (heq ▸ hc))]
    have ih2 := ih (fun l hl => h l (List.mem_cons_of_mem line hl))
    unfold charSplit at ih2
    rw [ih2]
    simp

theorem escape_no_newline (l : List Char) : '\n' ∉ escape l := by
  induction l with
  | nil => simp [escape]
  | cons c l ih =>
    show '\n' ∉ escChar c ++ escape l
    intro hmem
    rcases List.mem_append.mp hmem with h | h
    · unfold escChar at h
      by_cases h1 : c = '\\'
      · rw [if_pos h1] at h; exact absurd h (by decide)
      · rw [if_neg h1] at h
        by_cases h2 : c = '"'
        · rw [if_pos h2] at h; exact absurd h (by decide)
        · rw [if_neg h2] at h
          by_cases h3 : c = '\n'
          · rw [if_pos h3] at h; exact absurd h (by decide)
          · rw [if_neg h3] at h
            rcases List.mem_singleton.mp h with h4
            exact h3 h4.symm
    · exact ih h

theorem quote_no_newline (v : String) : '\n' ∉ quoteScalar v := by
  unfold quoteScalar
  intro hmem
  rcases List.mem_cons.mp hmem with h | h
  · exact absurd h (by decide)
  · rcases List.mem_append.mp h with h | h
    · exact escape_no_newline v.data h
    · exact absurd h (by decide)

theorem kvLine_no_newline (k v : String) (hk : '\n' ∉ k.data) :
    '\n' ∉ kvLine k v := by
  unfold kvLine
  intro hmem
  rcases List.mem_append.mp hmem with h | h
  · exact hk h
  · rcases List.mem_cons.mp h with h | h
    · exact absurd h (by decide)
    · rcases List.mem_cons.mp h with h | h
      · exact absurd h (by decide)
      · exact quote_no_newline v h

theorem itemLine_no_newline (v : String) : '\n' ∉ itemLine v := by
  unfold itemLine
  intro hmem
  rcases List.mem_cons.mp hmem with h | h
  · exact absurd h (by decide)
  · rcases List.mem_cons.mp h with h | h
    · exact absurd h (by decide)
    · exact quote_no_newline v h

theorem seqBlock_no_newline (k : String) (items : List String) (hk : '\n' ∉ k.data) :
    ∀ line ∈ seqBlock k items, '\n' ∉ line := by
  intro line hline
  cases items with
  | nil =>
    rcases List.mem_singleton.mp hline with h
    subst h
    intro hmem
    rcases List.mem_append.mp hmem with h | h
    · exact hk h
    · exact absurd h (by decide)
  | cons v vs =>
    rcases List.mem_cons.mp hline with h | h
    · subst h
      intro hmem
      rcases List.mem_append.mp hmem with h | h
      · exact hk h
      · exact absurd h (by decide)
    · obtain ⟨w, _, hw⟩ := List.mem_map.mp h
      rw [← hw]
      exact itemLine_no_newline w

theorem emitLines_no_newline (s : ExportSettings) :
    ∀ line ∈ emitLines s, '\n' ∉ line := by
  intro line hline
  unfold emitLines at hline
  simp only [List.mem_append] at hline
  rcases hline with ((((h | h) | h) | h) | h) | h
  · rcases List.mem_singleton.mp h with h
    subst h
    decide
  · cases hd : s.dashboard with
    | none => rw [hd] at h; exact absurd h (List.not_mem_nil line)
    | some d =>
      rw [hd] at h
      rcases List.mem_singleton.mp h with h
      subst h
      exact kvLine_no_newline "dashboard" d (by decide)
  · rcases List.mem_cons.mp h with h | h
    · subst h
      exact kvLine_no_newline "fsid" s.fsid (by decide)
    · rcases List.mem_singleton.mp h with h
      subst h
      exact kvLine_no_newline "mgr" s.mgr (by decide)
  · exact seqBlock_no_newline "mons" s.mons (by decide) line h
  · cases hr : s.rgws with
    | none => rw [hr] at h; exact absurd h (List.not_mem_nil line)
    | some r =>
      rw [hr] at h
      exact seqBlock_no_newline "rgws" r (by decide) line h
  · rcases List.mem_cons.mp h with h | h
    · subst h
      exact kvLine_no_newline "secret" s.secret (by decide)
    · rcases List.mem_singleton.mp h with h
      subst h
      exact kvLine_no_newline "version" s.version (by decide)

theorem parseHeader_emit (rest : List (List Char)) :
    parseHeader ("---".data :: rest) = some rest := by
  show (if "---".data = "---".data then some rest else none) = some rest
  rw [if_pos rfl]

theorem parseReqKV_emit (k v : String) (rest : List (List Char)) :
    parseReqKV k (kvLine k v :: rest) = some (v, rest) := by
  show (parseKVLine k (kvLine k v)).map (fun w => (w, rest)) = some (v, rest)
  rw [parseKVLine_emit]
  rfl

theorem parseOptKV_present (k v : String) (rest : List (List Char)) :
    parseOptKV k (kvLine k v :: rest) = (some v, rest) := by
  show (match parseKVLine k (kvLine k v) with
        | some w => (some w, rest)
        | none => (none, kvLine k v :: rest)) = (some v, rest)
  rw [parseKVLine_emit]

theorem parseOptKV_absent_fsid (v : String) (rest : List (List Char)) :
    parseOptKV "dashboard" (kvLine "fsid" v :: rest)
      = (none, kvLine "fsid" v :: rest) := by
  show (match parseKVLine "dashboard" (kvLine "fsid" v) with
        | some w => (some w, rest)
        | none => (none, kvLine "fsid" v :: rest))
      = (none, kvLine "fsid" v :: rest)
  rw [show parseKVLine "dashboard" (kvLine "fsid" v) = none from rfl]

theorem parseOptSeq_absent_secret (v : String) (ls : List (List Char)) :
    parseOptSeq "rgws" (kvLine "secret" v :: ls)
      = some (none, kvLine "secret" v :: ls) := by
  show (match expectLit ("rgws".data ++ [':']) (kvLine "secret" v) with
        | none => some (none, kvLine "secret" v :: ls)
        | some _ =>
          (parseSeqBlock "rgws" (kvLine "secret" v :: ls)).map
            (fun p => (some p.1, p.2)))
      = some (none, kvLine "secret" v :: ls)
  rw [show expectLit ("rgws".data ++ [':']) (kvLine "secret" v) = none from rfl]

theorem headNotDash_secret (v : String) (t : List (List Char)) :
    headNotDash (kvLine "secret" v :: t) := by
  show ('s' : Char) ≠ '-'
  decide

theorem headNotDash_seqBlock_rgws (r : List String) (t : List (List Char)) :
    headNotDash (seqBlock "rgws" r ++ t) := by
  cases r with
  | nil =>
    show ('r' : Char) ≠ '-'
    decide
  | cons v vs =>
    show ('r' : Char) ≠ '-'
    decide

/-- C8: serializing an `ExportSettings` mapping to the export document and
re-parsing the document recovers the mapping exactly — the export format
is lossless. -/
theorem export_roundtrip (s : ExportSettings) :
    parseSettings (emitSettings s) = some s := by
  unfold parseSettings emitSettings
  rw [charSplit_joinLines (emitLines s) (emitLines_no_newline s)]
  unfold emitLines
  cases hd : s.dashboard with
  | none =>
    cases hr : s.rgws with
    | none =>
      simp only [List.append_assoc, List.cons_append, List.nil_append,
        List.singleton_append]
      unfold parseSettingsLines
      rw [parseHeader_emit]
      simp only [Option.some_bind]
      rw [parseOptKV_absent_fsid]
      simp only []
      rw [parseReqKV_emit]
      simp only [Option.some_bind]
      rw [parseReqKV_emit]
      simp only [Option.some_bind]
      rw [parseSeqBlock_emit "mons" s.mons _ (headNotDash_secret _ _)]
      simp only [Option.some_bind]
      rw [parseOptSeq_absent_secret]
      simp only [Option.some_bind]
      rw [parseReqKV_emit]
      simp only [Option.some_bind]
      rw [parseReqKV_emit]
      simp only [Option.some_bind]
      rw [if_pos trivial, ← hd, ← hr]
    | some r =>
      simp only [List.append_assoc, List.cons_append, List.nil_append,
        List.singleton_append]
      unfold parseSettingsLines
      rw [parseHeader_emit]
      simp only [Option.some_bind]
      rw [parseOptKV_absent_fsid]
      simp only []
      rw [parseReqKV_emit]
      simp only [Option.some_bind]
      rw [parseReqKV_emit]
      simp only [Option.some_bind]
      rw [parseSeqBlock_emit "mons" s.mons _ (headNotDash_seqBlock_rgws r _)]
      simp only [Option.some_bind]
      rw [parseOptSeq_emit "rgws" r _ (headNotDash_secret _ _)]
      simp only [Option.some_bind]
      rw [parseReqKV_emit]
      simp only [Option.some_bind]
      rw [parseReqKV_emit]
      simp only [Option.some_bind]
      rw [if_pos trivial, ← hd, ← hr]
  | some d =>
    cases hr : s.rgws with
    | none =>
      simp only [List.append_assoc, List.cons_append, List.nil_append,
        List.singleton_append]
      unfold parseSettingsLines
      rw [parseHeader_emit]
      simp only [Option.some_bind]
      rw [parseOptKV_present]
      simp only []
      rw [parseReqKV_emit]
      simp only [Option.some_bind]
      rw [parseReqKV_emit]
      simp only [Option.some_bind]
      rw [parseSeqBlock_emit "mons" s.mons _ (headNotDash_secret _ _)]
      simp only [Option.some_bind]
      rw [parseOptSeq_absent_secret]
      simp only [Option.some_bind]
      rw [parseReqKV_emit]
      simp only [Option.some_bind]
      rw [parseReqKV_emit]
      simp only [Option.some_bind]
      rw [if_pos trivial, ← hd, ← hr]
    | some r =>
      simp only [List.append_assoc, List.cons_append, List.nil_append,
        List.singleton_append]
      unfold parseSettingsLines
      rw [parseHeader_emit]
      simp only [Option.some_bind]
      rw [parseOptKV_present]
      simp only []
      rw [parseReqKV_emit]
      simp only [Option.some_bind]
      rw [parseReqKV_emit]
      simp only [Option.some_bind]
      rw [parseSeqBlock_emit "mons" s.mons _ (headNotDash_seqBlock_rgws r _)]
      simp only [Option.some_bind]
      rw [parseOptSeq_emit "rgws" r _ (headNotDash_secret _ _)]
      simp only [Option.some_bind]
      rw [parseReqKV_emit]
      simp only [Option.some_bind]
      rw [parseReqKV_emit]
      simp only [Option.some_bind]
      rw [if_pos trivial, ← hd, ← hr]

end CephExport
